import Mathlib

/-!
Shallow embedding of the `pns_anchor` Solana program
(`src/solana/programs/pns_anchor/src/lib.rs`).

Machine integers are modelled as `Nat` with explicit saturation / wrap:
`u64` saturating_add is `satAdd64`, `u16` saturating_add is `satAdd16`,
`u64::saturating_sub(1)` is Nat subtraction (already truncated at 0),
and the unchecked `u64 +` on line 57 is addition modulo `2 ^ 64`
(release-build two's-complement semantics).  The `i64 -> u64` cast
`clock.unix_timestamp as u64` is `asU64`.

Identities (`Pubkey`), 20-byte addresses and 32-byte hashes are modelled
as `Nat` (opaque values that are only ever compared for equality);
`Pubkey::default()` is `0`.

Each instruction handler becomes a pure function from the accounts it
receives (plus the verified signer key and the clock sysvar) to the
accounts as they stand when the handler returns, paired with
`Option PnsError` (`none` = `Ok(())`).  The translation keeps the
source's order of `require!` checks and field assignments, so a failing
check returns the accounts exactly as they were at that program point.
Event emission (`emit!`/`msg!`) has no effect on stored state and is not
modelled; the `bump` bookkeeping fields are omitted.
-/

namespace Pns

abbrev Pubkey := Nat
abbrev Hash := Nat
abbrev EthAddr := Nat

/-- `Pubkey::default()`: the all-zero identity. -/
def pubkeyDefault : Pubkey := 0

/-- `const TEN_YEARS_IN_SECONDS: u64 = 10 * 365 * 24 * 60 * 60;` -/
def TEN_YEARS_IN_SECONDS : Nat := 10 * 365 * 24 * 60 * 60

/-- `const MAX_RECORD_LENGTH: usize = 512;` -/
def MAX_RECORD_LENGTH : Nat := 512

/-- `const REGISTRY_VERSION: u8 = 2;` -/
def REGISTRY_VERSION : Nat := 2

/-- Largest `u64` value. -/
def U64MAX : Nat := 2 ^ 64 - 1

/-- Largest `u16` value. -/
def U16MAX : Nat := 65535

/-- `u64::saturating_add` on in-range operands. -/
def satAdd64 (a b : Nat) : Nat := min (a + b) U64MAX

/-- `u16::saturating_add` on in-range operands. -/
def satAdd16 (a b : Nat) : Nat := min (a + b) U16MAX

/-- `clock.unix_timestamp as u64`: two's-complement cast of an `i64` to `u64`. -/
def asU64 (t : Int) : Nat := (t % (2 : Int) ^ 64).toNat

inductive ConflictPolicy where
  | PolygonPriority
  | LatestWriteWins
deriving DecidableEq

inductive ChainSource where
  | Polygon
  | Solana
deriving DecidableEq

inductive WrapState where
  | None
  | Polygon
  | Solana
deriving DecidableEq

inductive RecordType where
  | Address
  | Text
  | ContentHash
  | Custom
deriving DecidableEq

inductive PnsError where
  | Unauthorized
  | DomainExpired
  | DomainNotAvailable
  | InvalidDuration
  | InvalidName
  | RecordTooLarge
  | ConflictViolation
deriving DecidableEq

/-- The `Registry` account (singleton PDA). -/
structure Registry where
  authority : Pubkey
  polygon_registry : EthAddr
  domain_count : Nat
  conflict_policy : ConflictPolicy
  version : Nat
deriving DecidableEq

/-- The `DomainAccount` PDA (one per `name_hash`). -/
structure DomainAccount where
  name_hash : Hash
  owner : Pubkey
  resolver : Option Pubkey
  expiration : Nat
  polygon_owner : EthAddr
  last_polygon_tx : Hash
  nft_mint : Option Pubkey
  wrap_state : WrapState
  record_count : Nat
deriving DecidableEq

/-- The `RecordAccount` PDA (one per `(domain, key_hash)`). -/
structure RecordAccount where
  domain : Pubkey
  key_hash : Hash
  record_type : RecordType
  source_chain : ChainSource
  version : Nat
  last_updated_slot : Nat
  data : List Nat
deriving DecidableEq

/-- A freshly allocated (zero-initialized) `DomainAccount`, as produced by
`init_if_needed` before the handler body runs. -/
def zeroDomain : DomainAccount :=
  { name_hash := 0, owner := pubkeyDefault, resolver := none, expiration := 0
    polygon_owner := 0, last_polygon_tx := 0, nft_mint := none
    wrap_state := WrapState.None, record_count := 0 }

/-- A freshly allocated (zero-initialized) `RecordAccount`.  The enum defaults
match the source's `#[default]` variants (`Address`, `Polygon`). -/
def zeroRecord : RecordAccount :=
  { domain := pubkeyDefault, key_hash := 0, record_type := RecordType.Address
    source_chain := ChainSource.Polygon, version := 0, last_updated_slot := 0
    data := [] }

/-- Handler `initialize`: builds the registry from the verified signer and the
two arguments (the `init` constraint guarantees the account did not exist). -/
def init_registry (authority : Pubkey) (polygon_registry : EthAddr)
    (conflict_policy : ConflictPolicy) : Registry :=
  { authority := authority, polygon_registry := polygon_registry
    domain_count := 0, conflict_policy := conflict_policy
    version := REGISTRY_VERSION }

/-- Handler `register_domain` (lib.rs lines 34-74).  Returns the
`(registry, domain_account)` pair as of the handler's return, plus the error
if a `require!` fired. -/
def register_domain (registry : Registry) (domain : DomainAccount) (clock : Int)
    (caller : Pubkey) (name_hash : Hash) (duration : Nat)
    (resolver : Option Pubkey) : (Registry × DomainAccount) × Option PnsError :=
  if ¬ (duration > 0) then ((registry, domain), some PnsError.InvalidDuration)
  else if ¬ (duration ≤ TEN_YEARS_IN_SECONDS) then
    ((registry, domain), some PnsError.InvalidDuration)
  else if domain.owner ≠ pubkeyDefault ∧ ¬ (asU64 clock ≥ domain.expiration) then
    ((registry, domain), some PnsError.DomainNotAvailable)
  else
    let domain' : DomainAccount :=
      { name_hash := name_hash
        owner := caller
        resolver := resolver
        -- line 57: `clock.unix_timestamp as u64 + duration`, an unchecked add
        expiration := (asU64 clock + duration) % 2 ^ 64
        polygon_owner := 0
        last_polygon_tx := 0
        nft_mint := none
        wrap_state := WrapState.None
        record_count := 0 }
    let registry' : Registry :=
      { registry with domain_count := satAdd64 registry.domain_count 1 }
    ((registry', domain'), none)

/-- Handler `renew_domain` (lib.rs lines 77-95). -/
def renew_domain (domain : DomainAccount) (caller : Pubkey) (duration : Nat) :
    DomainAccount × Option PnsError :=
  if ¬ (duration > 0) then (domain, some PnsError.InvalidDuration)
  else if ¬ (duration ≤ TEN_YEARS_IN_SECONDS) then
    (domain, some PnsError.InvalidDuration)
  else if ¬ (domain.owner = caller) then (domain, some PnsError.Unauthorized)
  else ({ domain with expiration := satAdd64 domain.expiration duration }, none)

/-- Handler `transfer_domain` (lib.rs lines 98-123). -/
def transfer_domain (domain : DomainAccount) (clock : Int) (caller : Pubkey)
    (new_owner : Pubkey) : DomainAccount × Option PnsError :=
  if ¬ (domain.owner ≠ pubkeyDefault) then
    (domain, some PnsError.DomainNotAvailable)
  else if ¬ (asU64 clock < domain.expiration) then
    (domain, some PnsError.DomainExpired)
  else if ¬ (domain.owner = caller) then (domain, some PnsError.Unauthorized)
  else ({ domain with owner := new_owner }, none)

/-- Handler `set_resolver` (lib.rs lines 126-139). -/
def set_resolver (domain : DomainAccount) (caller : Pubkey)
    (resolver : Option Pubkey) : DomainAccount × Option PnsError :=
  if ¬ (domain.owner = caller) then (domain, some PnsError.Unauthorized)
  else ({ domain with resolver := resolver }, none)

/-- Handler `mirror_domain` (lib.rs lines 142-183). -/
def mirror_domain (registry : Registry) (domain : DomainAccount)
    (caller : Pubkey) (name_hash : Hash) (polygon_owner : EthAddr)
    (solana_delegate : Option Pubkey) (expiration : Nat)
    (resolver : Option Pubkey) (polygon_tx : Hash) :
    (Registry × DomainAccount) × Option PnsError :=
  if ¬ (registry.authority = caller) then
    ((registry, domain), some PnsError.Unauthorized)
  else
    let domain' : DomainAccount :=
      { domain with
        name_hash := name_hash
        owner := solana_delegate.getD registry.authority
        polygon_owner := polygon_owner
        resolver := resolver
        expiration := expiration
        last_polygon_tx := polygon_tx }
    -- `was_uninitialized = domain.owner == Pubkey::default()`
    if domain.owner = pubkeyDefault then
      (({ registry with domain_count := satAdd64 registry.domain_count 1 },
        { domain' with wrap_state := WrapState.None, record_count := 0 }), none)
    else ((registry, domain'), none)

/-- Handler `update_delegate` (lib.rs lines 186-208). -/
def update_delegate (registry : Registry) (domain : DomainAccount)
    (caller : Pubkey) (new_delegate : Pubkey) :
    DomainAccount × Option PnsError :=
  if ¬ (registry.authority = caller) then (domain, some PnsError.Unauthorized)
  else ({ domain with owner := new_delegate }, none)

/-- Handler `upsert_record` (lib.rs lines 211-263).  `domain_addr` is
`domain.key()` (the domain PDA's address), `now_slot` is `Clock::get()?.slot`.
The registry account is not mutable in this instruction. -/
def upsert_record (registry : Registry) (domain : DomainAccount)
    (record : RecordAccount) (domain_addr : Pubkey) (now_slot : Nat)
    (caller : Pubkey) (key_hash : Hash) (record_type : RecordType)
    (data : List Nat) (source_chain : ChainSource) (version : Nat) :
    (DomainAccount × RecordAccount) × Option PnsError :=
  if ¬ (caller = registry.authority ∨ caller = domain.owner) then
    ((domain, record), some PnsError.Unauthorized)
  else if ¬ (data.length ≤ MAX_RECORD_LENGTH) then
    ((domain, record), some PnsError.RecordTooLarge)
  else if registry.conflict_policy = ConflictPolicy.PolygonPriority
      ∧ record.version > 0 ∧ source_chain = ChainSource.Solana
      ∧ ¬ (version ≥ record.version) then
    ((domain, record), some PnsError.ConflictViolation)
  else
    let record' : RecordAccount :=
      { domain := domain_addr
        key_hash := key_hash
        record_type := record_type
        source_chain := source_chain
        version := version
        last_updated_slot := now_slot
        data := data }
    -- `was_empty = record.domain == Pubkey::default()`
    if record.domain = pubkeyDefault then
      (({ domain with record_count := satAdd16 domain.record_count 1 },
        record'), none)
    else ((domain, record'), none)

/-- Handler `delete_record` (lib.rs lines 266-288).  The record account itself
is closed by the `close = authority` constraint after the handler succeeds;
the handler body only checks authorization and decrements the counter. -/
def delete_record (registry : Registry) (domain : DomainAccount)
    (caller : Pubkey) : DomainAccount × Option PnsError :=
  if ¬ (caller = registry.authority ∨ caller = domain.owner) then
    (domain, some PnsError.Unauthorized)
  else ({ domain with record_count := domain.record_count - 1 }, none)

/-- Handler `set_wrap_state` (lib.rs lines 291-316). -/
def set_wrap_state (registry : Registry) (domain : DomainAccount)
    (caller : Pubkey) (nft_mint : Option Pubkey) (wrap_state : WrapState) :
    DomainAccount × Option PnsError :=
  if ¬ (registry.authority = caller) then (domain, some PnsError.Unauthorized)
  else ({ domain with nft_mint := nft_mint, wrap_state := wrap_state }, none)

/-!
Ledger model.  The on-chain store is a key-value ledger of PDAs: one
`DomainAccount` per `name_hash` and one `RecordAccount` per
`(domain PDA, key_hash)`.  We represent it with association lists; since
the PDA derivation for a record is seeded by the domain PDA, which is
itself a deterministic injective function of `name_hash`, records are
keyed by the pair `(name_hash, key_hash)`.
-/

/-- Association-list lookup (first binding wins). -/
def alookup {α β : Type} [DecidableEq α] : List (α × β) → α → Option β
  | [], _ => none
  | kv :: l, k => if kv.1 = k then some kv.2 else alookup l k

/-- Remove every binding of a key. -/
def aerase {α β : Type} [DecidableEq α] : List (α × β) → α → List (α × β)
  | [], _ => []
  | kv :: l, k => if kv.1 = k then aerase l k else kv :: aerase l k

/-- Bind a key to a value, replacing any previous binding. -/
def aset {α β : Type} [DecidableEq α] (l : List (α × β)) (k : α) (v : β) :
    List (α × β) :=
  (k, v) :: aerase l k

/-- Number of record entries currently existing under the domain `h`. -/
def liveCount {β : Type} (l : List ((Hash × Hash) × β)) (h : Hash) : Nat :=
  List.countP (fun kv => decide (kv.1.1 = h)) l

/-- The domain PDA's address as a function of `name_hash`: deterministic,
injective, and never the default identity (an address derived from seeds is
never the all-zero key). -/
def domainKey (h : Hash) : Pubkey := h + 1

/-- Global ledger state: the registry singleton plus the existing domain and
record PDAs. -/
structure GState where
  registry : Registry
  domains : List (Hash × DomainAccount)
  records : List ((Hash × Hash) × RecordAccount)
deriving DecidableEq

/-- One instruction invocation: the verified signer, the sysvar values it
reads, and its arguments. -/
inductive Op where
  | register (caller : Pubkey) (clock : Int) (nameHash : Hash) (duration : Nat)
      (resolver : Option Pubkey)
  | renew (caller : Pubkey) (nameHash : Hash) (duration : Nat)
  | transfer (caller : Pubkey) (clock : Int) (nameHash : Hash)
      (newOwner : Pubkey)
  | setResolver (caller : Pubkey) (nameHash : Hash) (resolver : Option Pubkey)
  | mirror (caller : Pubkey) (nameHash : Hash) (polygonOwner : EthAddr)
      (solanaDelegate : Option Pubkey) (expiration : Nat)
      (resolver : Option Pubkey) (polygonTx : Hash)
  | updateDelegate (caller : Pubkey) (nameHash : Hash) (newDelegate : Pubkey)
  | upsert (caller : Pubkey) (slot : Nat) (nameHash : Hash) (keyHash : Hash)
      (recordType : RecordType) (data : List Nat) (sourceChain : ChainSource)
      (version : Nat)
  | deleteRec (caller : Pubkey) (nameHash : Hash) (keyHash : Hash)
  | setWrap (caller : Pubkey) (nameHash : Hash) (nftMint : Option Pubkey)
      (wrapState : WrapState)
deriving DecidableEq

/-- Transaction-level failure: either the handler returned a `PnsError`, or
account loading failed (an instruction other than the `init_if_needed` ones
was invoked on a PDA that does not exist). -/
inductive StepErr where
  | pns (e : PnsError)
  | missingAccount
deriving DecidableEq

/-- One transaction against the ledger.  `init_if_needed` instructions
(`register`, `mirror`, `upsert` for the record) load a zero-initialized
account when the PDA does not exist; the others require it to exist.  On any
failure the ledger is unchanged (the runtime discards the transaction);
`delete_record`'s `close = authority` removes the record PDA on success. -/
def stepE (s : GState) (op : Op) : GState × Option StepErr :=
  match op with
  | .register caller clock nh dur res =>
      let dom := (alookup s.domains nh).getD zeroDomain
      let r := register_domain s.registry dom clock caller nh dur res
      match r.2 with
      | some e => (s, some (StepErr.pns e))
      | none =>
          ({ s with registry := r.1.1, domains := aset s.domains nh r.1.2 },
           none)
  | .renew caller nh dur =>
      match alookup s.domains nh with
      | none => (s, some StepErr.missingAccount)
      | some dom =>
          let r := renew_domain dom caller dur
          match r.2 with
          | some e => (s, some (StepErr.pns e))
          | none => ({ s with domains := aset s.domains nh r.1 }, none)
  | .transfer caller clock nh newOwner =>
      match alookup s.domains nh with
      | none => (s, some StepErr.missingAccount)
      | some dom =>
          let r := transfer_domain dom clock caller newOwner
          match r.2 with
          | some e => (s, some (StepErr.pns e))
          | none => ({ s with domains := aset s.domains nh r.1 }, none)
  | .setResolver caller nh res =>
      match alookup s.domains nh with
      | none => (s, some StepErr.missingAccount)
      | some dom =>
          let r := set_resolver dom caller res
          match r.2 with
          | some e => (s, some (StepErr.pns e))
          | none => ({ s with domains := aset s.domains nh r.1 }, none)
  | .mirror caller nh po sd exp res ptx =>
      let dom := (alookup s.domains nh).getD zeroDomain
      let r := mirror_domain s.registry dom caller nh po sd exp res ptx
      match r.2 with
      | some e => (s, some (StepErr.pns e))
      | none =>
          ({ s with registry := r.1.1, domains := aset s.domains nh r.1.2 },
           none)
  | .updateDelegate caller nh nd =>
      match alookup s.domains nh with
      | none => (s, some StepErr.missingAccount)
      | some dom =>
          let r := update_delegate s.registry dom caller nd
          match r.2 with
          | some e => (s, some (StepErr.pns e))
          | none => ({ s with domains := aset s.domains nh r.1 }, none)
  | .upsert caller slot nh kh rt data src ver =>
      match alookup s.domains nh with
      | none => (s, some StepErr.missingAccount)
      | some dom =>
          let rec0 := (alookup s.records (nh, kh)).getD zeroRecord
          let r := upsert_record s.registry dom rec0 (domainKey nh) slot caller
            kh rt data src ver
          match r.2 with
          | some e => (s, some (StepErr.pns e))
          | none =>
              ({ s with domains := aset s.domains nh r.1.1,
                        records := aset s.records (nh, kh) r.1.2 }, none)
  | .deleteRec caller nh kh =>
      match alookup s.domains nh with
      | none => (s, some StepErr.missingAccount)
      | some dom =>
          match alookup s.records (nh, kh) with
          | none => (s, some StepErr.missingAccount)
          | some _ =>
              let r := delete_record s.registry dom caller
              match r.2 with
              | some e => (s, some (StepErr.pns e))
              | none =>
                  ({ s with domains := aset s.domains nh r.1,
                            records := aerase s.records (nh, kh) }, none)
  | .setWrap caller nh nm ws =>
      match alookup s.domains nh with
      | none => (s, some StepErr.missingAccount)
      | some dom =>
          let r := set_wrap_state s.registry dom caller nm ws
          match r.2 with
          | some e => (s, some (StepErr.pns e))
          | none => ({ s with domains := aset s.domains nh r.1 }, none)

/-- Run a sequence of transactions (failed ones leave the ledger unchanged). -/
def run : GState → List Op → GState
  | s, [] => s
  | s, op :: ops => run (stepE s op).1 ops

/-- Ledger state immediately after `initialize`. -/
def initState (authority : Pubkey) (polygon_registry : EthAddr)
    (conflict_policy : ConflictPolicy) : GState :=
  { registry := init_registry authority polygon_registry conflict_policy
    domains := [], records := [] }

/-- Does this transaction succeed and create a domain entry (first-time or
post-expiry `register_domain`, or `mirror_domain` on an entry whose delegate
is the default identity)? -/
def isCreate (s : GState) (op : Op) : Bool :=
  match op with
  | .register _ _ _ _ _ => decide ((stepE s op).2 = none)
  | .mirror _ nh _ _ _ _ _ =>
      decide ((stepE s op).2 = none)
        && decide (((alookup s.domains nh).getD zeroDomain).owner = pubkeyDefault)
  | _ => false

/-- Side conditions under which the delegate-nonzero invariant is preserved:
signers registering a domain are real (non-default) identities, and no caller
ever supplies the default identity as a new delegate. -/
def okOwnerStep (_s : GState) (op : Op) : Bool :=
  match op with
  | .register caller _ _ _ _ => decide (caller ≠ pubkeyDefault)
  | .transfer _ _ _ newOwner => decide (newOwner ≠ pubkeyDefault)
  | .updateDelegate _ _ nd => decide (nd ≠ pubkeyDefault)
  | .mirror _ _ _ sd _ _ _ => decide (sd ≠ some pubkeyDefault)
  | _ => true

/-- Side conditions under which the record-count invariant is preserved:
`register_domain` is not invoked on a domain that still has live record
entries, and no domain is pushed past `u16::MAX` live records. -/
def okCountStep (s : GState) (op : Op) : Bool :=
  match op with
  | .register _ _ nh _ _ => decide (liveCount s.records nh = 0)
  | .upsert _ _ nh kh _ _ _ _ =>
      (alookup s.records (nh, kh)).isSome
        || decide (liveCount s.records nh < U16MAX)
  | _ => true

/-- Does every step of the trace satisfy the side condition `f`? -/
def okTrace (f : GState → Op → Bool) : GState → List Op → Bool
  | _, [] => true
  | s, op :: ops => f s op && okTrace f (stepE s op).1 ops

/-- Both side-condition families at once. -/
def okBothStep (s : GState) (op : Op) : Bool :=
  okOwnerStep s op && okCountStep s op

/-- The custody-token consistency predicate of the spec:
`custodyTokenRef` present only when `wrapState ≠ None`. -/
def mintOk (d : DomainAccount) : Prop :=
  d.nft_mint.isSome → d.wrap_state ≠ WrapState.None

instance (d : DomainAccount) : Decidable (mintOk d) := by
  unfold mintOk; infer_instance

/-- The stored `record_count` of domain `h`, or `0` if the domain PDA does
not exist. -/
def recordCountOf (s : GState) (h : Hash) : Nat :=
  ((alookup s.domains h).map DomainAccount.record_count).getD 0

/-! Concrete fixtures used by witnesses and counterexamples. -/

/-- A registry owned by authority `1` under `PolygonPriority`. -/
def reg0 : Registry :=
  { authority := 1, polygon_registry := 0, domain_count := 0
    conflict_policy := ConflictPolicy.PolygonPriority, version := 2 }

/-- The same registry with `domain_count` at the `u64` ceiling. -/
def regMax : Registry := { reg0 with domain_count := U64MAX }

/-- A live domain delegated to `2`, expiring at time `100`. -/
def domLive : DomainAccount :=
  { name_hash := 10, owner := 2, resolver := none, expiration := 100
    polygon_owner := 0, last_polygon_tx := 0, nft_mint := none
    wrap_state := WrapState.None, record_count := 0 }

/-- An expired variant of `domLive`. -/
def domExp : DomainAccount := { domLive with expiration := 0 }

/-- An existing record at version `5`, last written from Solana. -/
def recV5 : RecordAccount :=
  { domain := 11, key_hash := 20, record_type := RecordType.Text
    source_chain := ChainSource.Solana, version := 5, last_updated_slot := 0
    data := [] }

/-- Ledger state right after `initialize(authority = 1, PolygonPriority)`. -/
def s0 : GState := initState 1 0 ConflictPolicy.PolygonPriority

/-- An initialized ledger whose `domain_count` sits at the `u64` ceiling
(reachable after `2^64 - 1` domain-creation events). -/
def sMax : GState := { registry := regMax, domains := [], records := [] }

/-- Does every transaction of the trace succeed? -/
def allOk : GState → List Op → Bool
  | _, [] => true
  | s, op :: ops => decide ((stepE s op).2 = none) && allOk (stepE s op).1 ops

/-- Delegate invariant: the authority is a real identity and every existing
domain entry has a non-default delegate. -/
def InvOwner (s : GState) : Prop :=
  s.registry.authority ≠ pubkeyDefault
    ∧ ∀ h d, alookup s.domains h = some d → d.owner ≠ pubkeyDefault

/-- Record-count invariant: record keys are unique, every record names a
non-default domain address, lives under an existing domain entry, and every
domain entry's `record_count` equals its number of live records. -/
def InvCount (s : GState) : Prop :=
  ((s.records.map Prod.fst).Nodup
      ∧ ∀ kv, kv ∈ s.records → kv.2.domain ≠ pubkeyDefault)
    ∧ (∀ kv, kv ∈ s.records → (alookup s.domains kv.1.1).isSome = true)
    ∧ ∀ h d, alookup s.domains h = some d →
        d.record_count = liveCount s.records h

/-- Trace exhibiting the delegate-zeroing hole: create a domain, then have
the authority reassign the delegate to the default identity. -/
def cexOps4 : List Op :=
  [Op.register 2 0 10 86400 none, Op.updateDelegate 1 10 pubkeyDefault]

/-- Trace exhibiting the record-count reset: register, upsert one record,
then re-register the expired domain (which resets `record_count` to 0 while
the record PDA still exists). -/
def cexOps5 : List Op :=
  [Op.register 2 0 10 1 none,
   Op.upsert 2 0 10 20 RecordType.Address [] ChainSource.Polygon 1,
   Op.register 3 5 10 1 none]

/-- A benign trace: one registration. -/
def wOps4 : List Op := [Op.register 2 0 10 86400 none]

/-- A benign trace: one registration followed by one record upsert. -/
def wOps5 : List Op :=
  [Op.register 2 0 10 86400 none,
   Op.upsert 2 0 10 20 RecordType.Address [] ChainSource.Polygon 1]

/-- The domain entry produced by `wOps4`. -/
def dWit : DomainAccount :=
  { name_hash := 10, owner := 2, resolver := none, expiration := 86400
    polygon_owner := 0, last_polygon_tx := 0, nft_mint := none
    wrap_state := WrapState.None, record_count := 0 }

/-- The domain entry produced by `wOps5`. -/
def dWit1 : DomainAccount := { dWit with record_count := 1 }

/-- C1: for an authorized `upsert_record` call with an in-bounds payload,
the call fails with `ConflictViolation` iff the registry policy is
`PolygonPriority`, the stored record's version is positive, the write is
Solana(Local)-sourced, and the incoming version is strictly below the
stored one; otherwise (LatestWriteWins, Polygon(External)-sourced, stored
version 0, or no prior record) the write overwrites the record
unconditionally. -/
theorem upsert_conflict_check (registry : Registry) (domain : DomainAccount)
    (record : RecordAccount) (domain_addr : Pubkey) (now_slot : Nat)
    (caller : Pubkey) (key_hash : Hash) (record_type : RecordType)
    (data : List Nat) (source_chain : ChainSource) (version : Nat)
    (hauth : caller = registry.authority ∨ caller = domain.owner)
    (hsize : data.length ≤ MAX_RECORD_LENGTH) :
    ((upsert_record registry domain record domain_addr now_slot caller key_hash
          record_type data source_chain version).2
        = some PnsError.ConflictViolation
      ↔ registry.conflict_policy = ConflictPolicy.PolygonPriority
          ∧ 0 < record.version ∧ source_chain = ChainSource.Solana
          ∧ version < record.version)
    ∧ (¬ (registry.conflict_policy = ConflictPolicy.PolygonPriority
          ∧ 0 < record.version ∧ source_chain = ChainSource.Solana
          ∧ version < record.version) →
        upsert_record registry domain record domain_addr now_slot caller
            key_hash record_type data source_chain version
          = ((if record.domain = pubkeyDefault
              then { domain with
                      record_count := satAdd16 domain.record_count 1 }
              else domain,
              { domain := domain_addr, key_hash := key_hash
                record_type := record_type, source_chain := source_chain
                version := version, last_updated_slot := now_slot
                data := data }), none)) := by
  unfold upsert_record
  rw [if_neg (not_not_intro hauth), if_neg (not_not_intro hsize)]
  by_cases hc : registry.conflict_policy = ConflictPolicy.PolygonPriority
      ∧ record.version > 0 ∧ source_chain = ChainSource.Solana
      ∧ ¬ (version ≥ record.version)
  · rw [if_pos hc]
    refine ⟨⟨fun _ => ⟨hc.1, hc.2.1, hc.2.2.1, lt_of_not_le hc.2.2.2⟩,
      fun _ => rfl⟩, fun hn => ?_⟩
    exact absurd ⟨hc.1, hc.2.1, hc.2.2.1, lt_of_not_le hc.2.2.2⟩ hn
  · rw [if_neg hc]
    constructor
    · constructor
      · intro h
        exfalso
        split_ifs at h
      · intro hr
        exact absurd ⟨hr.1, hr.2.1, hr.2.2.1, not_le.mpr hr.2.2.2⟩ hc
    · intro _
      split_ifs <;> rfl

/-- C1 witness -/
theorem upsert_conflict_check_witness :
    (upsert_record reg0 domLive recV5 11 0 2 20 RecordType.Text []
        ChainSource.Solana 4).2 = some PnsError.ConflictViolation :=
  (upsert_conflict_check reg0 domLive recV5 11 0 2 20 RecordType.Text []
      ChainSource.Solana 4 (Or.inr (by decide)) (by decide)).1.mpr (by decide)

/-- C2 amended: `register_domain` fails with `InvalidDuration` exactly when
the duration is outside `(0, TEN_YEARS]`; on an entry with a non-default
delegate and an unexpired clock it fails with `DomainNotAvailable` leaving
the accounts untouched; and on every success the entry is repopulated with
the caller as delegate, the mirror-only fields reset to defaults, and
`domain_count` incremented by 1 saturating at `u64::MAX` (the claim's
unconditional `+1` fails at the ceiling, see the counterexample). -/
theorem register_domain_spec (registry : Registry) (domain : DomainAccount)
    (clock : Int) (caller : Pubkey) (name_hash : Hash) (duration : Nat)
    (resolver : Option Pubkey) :
    ((register_domain registry domain clock caller name_hash duration
          resolver).2 = some PnsError.InvalidDuration
      ↔ ¬ (0 < duration ∧ duration ≤ TEN_YEARS_IN_SECONDS))
    ∧ (0 < duration → duration ≤ TEN_YEARS_IN_SECONDS →
        domain.owner ≠ pubkeyDefault → asU64 clock < domain.expiration →
        register_domain registry domain clock caller name_hash duration
            resolver
          = ((registry, domain), some PnsError.DomainNotAvailable))
    ∧ ((register_domain registry domain clock caller name_hash duration
          resolver).2 = none →
        register_domain registry domain clock caller name_hash duration
            resolver
          = (({ registry with
                domain_count := satAdd64 registry.domain_count 1 },
              { name_hash := name_hash, owner := caller, resolver := resolver
                expiration := (asU64 clock + duration) % 2 ^ 64
                polygon_owner := 0, last_polygon_tx := 0, nft_mint := none
                wrap_state := WrapState.None, record_count := 0 }), none)) := by
  unfold register_domain
  refine ⟨?_, ?_, ?_⟩
  · constructor
    · intro h hd
      rw [if_neg (not_not_intro hd.1), if_neg (not_not_intro hd.2)] at h
      split_ifs at h <;> simp_all
    · intro hd
      rcases not_and_or.mp hd with h1 | h2
      · rw [if_pos h1]
      · rw [if_neg (not_not_intro (Nat.pos_of_ne_zero (by
          intro h0; exact h2 (h0 ▸ Nat.zero_le _)))), if_pos h2]
  · intro h1 h2 h3 h4
    rw [if_neg (not_not_intro h1), if_neg (not_not_intro h2),
      if_pos ⟨h3, not_le.mpr h4⟩]
  · intro h
    split_ifs at h ⊢ <;> simp_all

/-- C2 counterexample: with `domain_count` at `u64::MAX`, a successful
first-time registration leaves the counter unchanged (saturating add), so it
is not "incremented by 1 unconditionally". -/
theorem register_domain_count_cex :
    (register_domain regMax zeroDomain 0 2 10 1 none).2 = none
    ∧ (register_domain regMax zeroDomain 0 2 10 1 none).1.1.domain_count
        = U64MAX
    ∧ (register_domain regMax zeroDomain 0 2 10 1 none).1.1.domain_count
        ≠ regMax.domain_count + 1 := by decide

/-- C2 witness -/
theorem register_domain_spec_witness :
    (register_domain reg0 zeroDomain 0 2 10 86400 none).1.2.owner = 2 := by
  have h := (register_domain_spec reg0 zeroDomain 0 2 10 86400 none).2.2
    (by decide)
  rw [h]

/-- C3 amended: `mirror_domain` fails with `Unauthorized` exactly when the
caller is not the registry authority; on success it unconditionally
overwrites delegate (defaulting to the authority), external owner, resolver,
expiration and audit reference; and it resets wrap state / record count and
bumps `domain_count` (saturating at `u64::MAX`, not always by exactly 1)
precisely when the prior delegate was the default identity. -/
theorem mirror_domain_spec (registry : Registry) (domain : DomainAccount)
    (caller : Pubkey) (name_hash : Hash) (polygon_owner : EthAddr)
    (solana_delegate : Option Pubkey) (expiration : Nat)
    (resolver : Option Pubkey) (polygon_tx : Hash) :
    ((mirror_domain registry domain caller name_hash polygon_owner
          solana_delegate expiration resolver polygon_tx).2
        = some PnsError.Unauthorized
      ↔ caller ≠ registry.authority)
    ∧ (caller = registry.authority →
        (mirror_domain registry domain caller name_hash polygon_owner
            solana_delegate expiration resolver polygon_tx).2 = none
        ∧ ((mirror_domain registry domain caller name_hash polygon_owner
              solana_delegate expiration resolver polygon_tx).1.2
            = { domain with
                name_hash := name_hash
                owner := solana_delegate.getD registry.authority
                polygon_owner := polygon_owner
                resolver := resolver
                expiration := expiration
                last_polygon_tx := polygon_tx
                wrap_state := if domain.owner = pubkeyDefault
                  then WrapState.None else domain.wrap_state
                record_count := if domain.owner = pubkeyDefault
                  then 0 else domain.record_count })
        ∧ ((mirror_domain registry domain caller name_hash polygon_owner
              solana_delegate expiration resolver polygon_tx).1.1.domain_count
            = if domain.owner = pubkeyDefault
              then satAdd64 registry.domain_count 1
              else registry.domain_count)) := by
  unfold mirror_domain
  constructor
  · constructor
    · intro h hc
      rw [if_neg (not_not_intro hc.symm)] at h
      split_ifs at h
    · intro hc
      rw [if_pos (fun he => hc he.symm)]
  · intro hc
    rw [if_neg (not_not_intro hc.symm)]
    split_ifs with hu <;> simp_all

/-- C3 counterexample: a successful mirror of a brand-new entry with
`domain_count` already at `u64::MAX` does not increment the counter by 1. -/
theorem mirror_domain_count_cex :
    (mirror_domain regMax zeroDomain 1 10 7 none 50 none 9).2 = none
    ∧ zeroDomain.owner = pubkeyDefault
    ∧ (mirror_domain regMax zeroDomain 1 10 7 none 50 none 9).1.1.domain_count
        = U64MAX
    ∧ (mirror_domain regMax zeroDomain 1 10 7 none 50 none 9).1.1.domain_count
        ≠ regMax.domain_count + 1 := by decide

/-- C3 witness -/
theorem mirror_domain_spec_witness :
    (mirror_domain reg0 domLive 1 10 7 none 50 none 9).1.2.owner = 1 := by
  have h := ((mirror_domain_spec reg0 domLive 1 10 7 none 50 none 9).2
    (by decide)).2.1
  rw [h]
  decide

/-- C7: at the failing input `clock.unix_timestamp = -1` (which the
`as u64` cast turns into `u64::MAX`) and `duration = 1`, `register_domain`
succeeds and stores `expiration = (u64::MAX + 1) mod 2^64 = 0` — the
unchecked `+` on line 57 silently wraps instead of saturating (contrast
`renew_domain`, which uses `saturating_add` for the same field). -/
theorem register_domain_expiration_wraps :
    (register_domain reg0 zeroDomain (-1) 2 10 1 none).2 = none
    ∧ asU64 (-1) = U64MAX
    ∧ (register_domain reg0 zeroDomain (-1) 2 10 1 none).1.2.expiration = 0
    ∧ (renew_domain { domLive with expiration := U64MAX } 2 1).1.expiration
        = U64MAX := by decide

/-- C8: every handler performs all of its validity checks before any write —
whenever a handler returns an error, the accounts it received are returned
exactly as they were. -/
theorem handlers_atomic :
    (∀ registry domain clock caller nh dur res e,
      (register_domain registry domain clock caller nh dur res).2 = some e →
      (register_domain registry domain clock caller nh dur res).1
        = (registry, domain))
    ∧ (∀ domain caller dur e,
      (renew_domain domain caller dur).2 = some e →
      (renew_domain domain caller dur).1 = domain)
    ∧ (∀ domain clock caller nw e,
      (transfer_domain domain clock caller nw).2 = some e →
      (transfer_domain domain clock caller nw).1 = domain)
    ∧ (∀ domain caller res e,
      (set_resolver domain caller res).2 = some e →
      (set_resolver domain caller res).1 = domain)
    ∧ (∀ registry domain caller nh po sd exp res ptx e,
      (mirror_domain registry domain caller nh po sd exp res ptx).2
          = some e →
      (mirror_domain registry domain caller nh po sd exp res ptx).1
        = (registry, domain))
    ∧ (∀ registry domain caller nd e,
      (update_delegate registry domain caller nd).2 = some e →
      (update_delegate registry domain caller nd).1 = domain)
    ∧ (∀ registry domain record da slot caller kh rt data src ver e,
      (upsert_record registry domain record da slot caller kh rt data src
          ver).2 = some e →
      (upsert_record registry domain record da slot caller kh rt data src
          ver).1 = (domain, record))
    ∧ (∀ registry domain caller e,
      (delete_record registry domain caller).2 = some e →
      (delete_record registry domain caller).1 = domain)
    ∧ (∀ registry domain caller nm ws e,
      (set_wrap_state registry domain caller nm ws).2 = some e →
      (set_wrap_state registry domain caller nm ws).1 = domain) := by
  refine ⟨?_, ?_, ?_, ?_, ?_, ?_, ?_, ?_, ?_⟩ <;> intros <;>
    first
      | (rename_i h; unfold register_domain at h ⊢;
          split_ifs at h ⊢ <;> simp_all)
      | (rename_i h; unfold renew_domain at h ⊢;
          split_ifs at h ⊢ <;> simp_all)
      | (rename_i h; unfold transfer_domain at h ⊢;
          split_ifs at h ⊢ <;> simp_all)
      | (rename_i h; unfold set_resolver at h ⊢;
          split_ifs at h ⊢ <;> simp_all)
      | (rename_i h; unfold mirror_domain at h ⊢;
          split_ifs at h ⊢ <;> simp_all)
      | (rename_i h; unfold update_delegate at h ⊢;
          split_ifs at h ⊢ <;> simp_all)
      | (rename_i h; unfold upsert_record at h ⊢;
          split_ifs at h ⊢ <;> simp_all)
      | (rename_i h; unfold delete_record at h ⊢;
          split_ifs at h ⊢ <;> simp_all)
      | (rename_i h; unfold set_wrap_state at h ⊢;
          split_ifs at h ⊢ <;> simp_all)

/-- C8 witness -/
theorem handlers_atomic_witness :
    (register_domain reg0 domLive 0 2 10 0 none).1 = (reg0, domLive) :=
  handlers_atomic.1 reg0 domLive 0 2 10 0 none PnsError.InvalidDuration
    (by decide)

/-- C9 amended: `register_domain` always re-establishes the custody-token
consistency predicate (`nft_mint` present only when `wrap_state ≠ None`);
`mirror_domain` preserves it provided an entry with the default delegate has
no custody token (true of a genuinely fresh account, whose fields are all
zero); `set_wrap_state` preserves it exactly when its own arguments satisfy
it — the handler performs no validation, so an authority call with
`nft_mint = Some _` and `wrap_state = None` breaks the invariant (see the
counterexample). -/
theorem wrap_mint_consistency :
    (∀ registry domain clock caller nh dur res,
      mintOk domain →
      mintOk (register_domain registry domain clock caller nh dur res).1.2)
    ∧ (∀ registry domain caller nh po sd exp res ptx,
      mintOk domain → (domain.owner = pubkeyDefault →
        domain.nft_mint = none) →
      mintOk (mirror_domain registry domain caller nh po sd exp res ptx).1.2)
    ∧ (∀ registry domain caller nm ws,
      mintOk domain → (nm.isSome → ws ≠ WrapState.None) →
      mintOk (set_wrap_state registry domain caller nm ws).1) := by
  refine ⟨?_, ?_, ?_⟩
  · intro registry domain clock caller nh dur res hd
    unfold register_domain
    split_ifs <;> simp_all [mintOk]
  · intro registry domain caller nh po sd exp res ptx hd hz
    unfold mirror_domain
    split_ifs <;> simp_all [mintOk]
  · intro registry domain caller nm ws hd hargs
    unfold set_wrap_state
    split_ifs <;> simp_all [mintOk]

/-- C9 counterexample: the registry authority can set a custody token
reference together with `wrap_state = None`; the call succeeds and the
stored entry violates the claimed invariant. -/
theorem wrap_mint_consistency_cex :
    (set_wrap_state reg0 domLive 1 (some 5) WrapState.None).2 = none
    ∧ ¬ mintOk (set_wrap_state reg0 domLive 1 (some 5) WrapState.None).1 := by
  decide

/-- C9 witness -/
theorem wrap_mint_consistency_witness :
    mintOk (set_wrap_state reg0 domLive 1 (some 5) WrapState.Solana).1 :=
  wrap_mint_consistency.2.2 reg0 domLive 1 (some 5) WrapState.Solana
    (by decide) (by decide)

/-- C10: on an expired domain (`now ≥ expiration`) the stored delegate can
still successfully renew, set the resolver, upsert a record (subject only to
the size and conflict checks) and delete a record — none of these consult
the expiration — while `transfer_domain` on the same expired domain fails
with `DomainExpired`. -/
theorem expired_domain_operations (registry : Registry)
    (domain : DomainAccount) (record : RecordAccount) (domain_addr : Pubkey)
    (now_slot : Nat) (clock : Int) (caller : Pubkey) (duration : Nat)
    (resolver : Option Pubkey) (key_hash : Hash) (record_type : RecordType)
    (data : List Nat) (source_chain : ChainSource) (version : Nat)
    (new_owner : Pubkey)
    (hexp : asU64 clock ≥ domain.expiration)
    (hcaller : caller = domain.owner)
    (howner : domain.owner ≠ pubkeyDefault)
    (hdur1 : 0 < duration) (hdur2 : duration ≤ TEN_YEARS_IN_SECONDS)
    (hsize : data.length ≤ MAX_RECORD_LENGTH)
    (hconf : ¬ (registry.conflict_policy = ConflictPolicy.PolygonPriority
      ∧ record.version > 0 ∧ source_chain = ChainSource.Solana
      ∧ ¬ (version ≥ record.version))) :
    (renew_domain domain caller duration).2 = none
    ∧ (set_resolver domain caller resolver).2 = none
    ∧ (upsert_record registry domain record domain_addr now_slot caller
        key_hash record_type data source_chain version).2 = none
    ∧ (delete_record registry domain caller).2 = none
    ∧ (transfer_domain domain clock caller new_owner).2
        = some PnsError.DomainExpired := by
  refine ⟨?_, ?_, ?_, ?_, ?_⟩
  · unfold renew_domain
    rw [if_neg (not_not_intro hdur1), if_neg (not_not_intro hdur2),
      if_neg (not_not_intro hcaller.symm)]
  · unfold set_resolver
    rw [if_neg (not_not_intro hcaller.symm)]
  · unfold upsert_record
    rw [if_neg (not_not_intro (Or.inr hcaller)), if_neg (not_not_intro hsize),
      if_neg hconf]
    split_ifs <;> rfl
  · unfold delete_record
    rw [if_neg (not_not_intro (Or.inr hcaller))]
  · unfold transfer_domain
    rw [if_neg (not_not_intro howner), if_pos (not_lt.mpr hexp)]

/-- C10 witness -/
theorem expired_domain_operations_witness :
    (transfer_domain domExp 5 2 3).2 = some PnsError.DomainExpired :=
  (expired_domain_operations reg0 domExp zeroRecord 11 0 5 2 1 none 20
      RecordType.Text [] ChainSource.Polygon 1 3 (by decide) (by decide)
      (by decide) (by decide) (by decide) (by decide) (by decide)).2.2.2.2

/-! Association-list lemmas. -/

theorem alookup_cons {α β : Type} [DecidableEq α] (kv : α × β)
    (l : List (α × β)) (k : α) :
    alookup (kv :: l) k = if kv.1 = k then some kv.2 else alookup l k := rfl

theorem aerase_cons {α β : Type} [DecidableEq α] (kv : α × β)
    (l : List (α × β)) (k : α) :
    aerase (kv :: l) k
      = if kv.1 = k then aerase l k else kv :: aerase l k := rfl

theorem alookup_eq_none {α β : Type} [DecidableEq α]
    {l : List (α × β)} {k : α} :
    alookup l k = none ↔ ∀ kv, kv ∈ l → kv.1 ≠ k := by
  induction l with
  | nil => simp [alookup]
  | cons kv t ih =>
    rw [alookup_cons]
    by_cases hk : kv.1 = k
    · simp only [if_pos hk]
      constructor
      · intro h; exact Option.noConfusion h
      · intro h; exact absurd hk (h kv (List.mem_cons_self _ _))
    · simp only [if_neg hk, ih]
      constructor
      · intro h kv' hm
        rcases List.mem_cons.mp hm with h1 | h2
        · exact h1 ▸ hk
        · exact h kv' h2
      · intro h kv' hm; exact h kv' (List.mem_cons_of_mem _ hm)

theorem mem_of_mem_aerase {α β : Type} [DecidableEq α] {l : List (α × β)}
    {k : α} {kv : α × β} (h : kv ∈ aerase l k) : kv ∈ l := by
  induction l with
  | nil => simpa [aerase] using h
  | cons kv' t ih =>
    rw [aerase_cons] at h
    split_ifs at h with hk
    · exact List.mem_cons_of_mem _ (ih h)
    · rcases List.mem_cons.mp h with h1 | h2
      · exact h1 ▸ List.mem_cons_self _ _
      · exact List.mem_cons_of_mem _ (ih h2)

theorem not_mem_keys_aerase {α β : Type} [DecidableEq α]
    (l : List (α × β)) (k : α) : k ∉ (aerase l k).map Prod.fst := by
  induction l with
  | nil => simp [aerase]
  | cons kv t ih =>
    rw [aerase_cons]
    split_ifs with hk
    · exact ih
    · simp only [List.map_cons, List.mem_cons]
      rintro (h | h)
      · exact hk h.symm
      · exact ih h

theorem nodup_keys_aerase {α β : Type} [DecidableEq α] {l : List (α × β)}
    (k : α) (h : (l.map Prod.fst).Nodup) :
    ((aerase l k).map Prod.fst).Nodup := by
  induction l with
  | nil => simp [aerase]
  | cons kv t ih =>
    simp only [List.map_cons, List.nodup_cons] at h
    rw [aerase_cons]
    split_ifs with hk
    · exact ih h.2
    · simp only [List.map_cons, List.nodup_cons]
      refine ⟨fun hm => ?_, ih h.2⟩
      rcases List.mem_map.mp hm with ⟨kv', hkv', he⟩
      exact h.1 (List.mem_map.mpr ⟨kv', mem_of_mem_aerase hkv', he⟩)

theorem nodup_keys_aset {α β : Type} [DecidableEq α] {l : List (α × β)}
    (k : α) (v : β) (h : (l.map Prod.fst).Nodup) :
    ((aset l k v).map Prod.fst).Nodup := by
  simp only [aset, List.map_cons, List.nodup_cons]
  exact ⟨not_mem_keys_aerase l k, nodup_keys_aerase k h⟩

theorem alookup_aerase_ne {α β : Type} [DecidableEq α] {l : List (α × β)}
    {k k' : α} (h : k' ≠ k) : alookup (aerase l k) k' = alookup l k' := by
  induction l with
  | nil => rfl
  | cons kv t ih =>
    by_cases hk : kv.1 = k
    · rw [aerase_cons, if_pos hk, alookup_cons,
        if_neg (fun he => h (he.symm.trans hk))]
      exact ih
    · rw [aerase_cons, if_neg hk, alookup_cons, alookup_cons]
      by_cases hk' : kv.1 = k'
      · rw [if_pos hk', if_pos hk']
      · rw [if_neg hk', if_neg hk']
        exact ih

theorem alookup_aset_self {α β : Type} [DecidableEq α] (l : List (α × β))
    (k : α) (v : β) : alookup (aset l k v) k = some v := by
  simp [aset, alookup_cons]

theorem alookup_aset_ne {α β : Type} [DecidableEq α] (l : List (α × β))
    (k : α) (v : β) {k' : α} (h : k' ≠ k) :
    alookup (aset l k v) k' = alookup l k' := by
  rw [aset, alookup_cons, if_neg (fun he => h he.symm)]
  exact alookup_aerase_ne h

theorem isSome_alookup_aset {α β : Type} [DecidableEq α] {l : List (α × β)}
    {k' : α} (k : α) (v : β) (h : (alookup l k').isSome = true) :
    (alookup (aset l k v) k').isSome = true := by
  by_cases he : k' = k
  · subst he; rw [alookup_aset_self]; rfl
  · rw [alookup_aset_ne l k v he]; exact h

theorem aerase_of_lookup_none {α β : Type} [DecidableEq α]
    {l : List (α × β)} {k : α} (h : alookup l k = none) : aerase l k = l := by
  induction l with
  | nil => rfl
  | cons kv t ih =>
    rw [alookup_cons] at h
    split_ifs at h with hk
    rw [aerase_cons, if_neg hk, ih h]

/-! Live-record counting lemmas. -/

theorem liveCount_cons {β : Type} (kv : (Hash × Hash) × β)
    (l : List ((Hash × Hash) × β)) (h : Hash) :
    liveCount (kv :: l) h = liveCount l h + (if kv.1.1 = h then 1 else 0) := by
  simp [liveCount, List.countP_cons]

theorem liveCount_aerase_ne {β : Type} {l : List ((Hash × Hash) × β)}
    {k : Hash × Hash} {h : Hash} (hk : k.1 ≠ h) :
    liveCount (aerase l k) h = liveCount l h := by
  induction l with
  | nil => rfl
  | cons kv t ih =>
    rw [aerase_cons]
    split_ifs with hkv
    · rw [liveCount_cons, if_neg (fun he => hk (hkv ▸ he)), Nat.add_zero]
      exact ih
    · rw [liveCount_cons, liveCount_cons, ih]

theorem liveCount_aerase_eq {β : Type} {l : List ((Hash × Hash) × β)}
    {k : Hash × Hash} {v : β} {h : Hash}
    (hnd : (l.map Prod.fst).Nodup) (hv : alookup l k = some v)
    (hk : k.1 = h) : liveCount l h = liveCount (aerase l k) h + 1 := by
  induction l with
  | nil => exact absurd hv (by simp [alookup])
  | cons kv t ih =>
    simp only [List.map_cons, List.nodup_cons] at hnd
    rw [alookup_cons] at hv
    split_ifs at hv with hkv
    · have ht : alookup t k = none := by
        rw [alookup_eq_none]
        intro kv' hm he
        apply hnd.1
        rw [hkv, ← he]
        exact List.mem_map.mpr ⟨kv', hm, rfl⟩
      rw [aerase_cons, if_pos hkv, aerase_of_lookup_none ht, liveCount_cons,
        if_pos (by rw [hkv]; exact hk)]
    · rw [aerase_cons, if_neg hkv, liveCount_cons, liveCount_cons,
        ih hnd.2 hv]
      ring

theorem liveCount_aset {β : Type} (l : List ((Hash × Hash) × β))
    (k : Hash × Hash) (v : β) (h : Hash) :
    liveCount (aset l k v) h
      = liveCount (aerase l k) h + (if k.1 = h then 1 else 0) := by
  rw [aset, liveCount_cons]

theorem liveCount_eq_zero_of {β : Type} {l : List ((Hash × Hash) × β)}
    {h : Hash} (hall : ∀ kv, kv ∈ l → kv.1.1 ≠ h) : liveCount l h = 0 := by
  rw [liveCount, List.countP_eq_zero]
  intro kv hm
  simpa using hall kv hm

/-! Handler field lemmas feeding the ledger-level invariants. -/

theorem register_auth_eq (registry : Registry) (domain : DomainAccount)
    (clock : Int) (caller : Pubkey) (nh : Hash) (dur : Nat)
    (res : Option Pubkey) :
    (register_domain registry domain clock caller nh dur res).1.1.authority
      = registry.authority := by
  unfold register_domain; split_ifs <;> rfl

theorem register_ok_fields (registry : Registry) (domain : DomainAccount)
    (clock : Int) (caller : Pubkey) (nh : Hash) (dur : Nat)
    (res : Option Pubkey)
    (h : (register_domain registry domain clock caller nh dur res).2 = none) :
    (register_domain registry domain clock caller nh dur res).1.2.owner
        = caller
    ∧ (register_domain registry domain clock caller nh dur
        res).1.2.record_count = 0
    ∧ (register_domain registry domain clock caller nh dur
        res).1.1.domain_count = satAdd64 registry.domain_count 1 := by
  unfold register_domain at h ⊢
  split_ifs at h ⊢ <;> simp_all

theorem renew_fields (domain : DomainAccount) (caller : Pubkey) (dur : Nat) :
    (renew_domain domain caller dur).1.owner = domain.owner
    ∧ (renew_domain domain caller dur).1.record_count
        = domain.record_count := by
  unfold renew_domain; split_ifs <;> exact ⟨rfl, rfl⟩

theorem transfer_rc_eq (domain : DomainAccount) (clock : Int)
    (caller : Pubkey) (nw : Pubkey) :
    (transfer_domain domain clock caller nw).1.record_count
      = domain.record_count := by
  unfold transfer_domain; split_ifs <;> rfl

theorem transfer_ok_owner (domain : DomainAccount) (clock : Int)
    (caller : Pubkey) (nw : Pubkey)
    (h : (transfer_domain domain clock caller nw).2 = none) :
    (transfer_domain domain clock caller nw).1.owner = nw := by
  unfold transfer_domain at h ⊢
  split_ifs at h ⊢ <;> simp_all

theorem set_resolver_fields (domain : DomainAccount) (caller : Pubkey)
    (res : Option Pubkey) :
    (set_resolver domain caller res).1.owner = domain.owner
    ∧ (set_resolver domain caller res).1.record_count
        = domain.record_count := by
  unfold set_resolver; split_ifs <;> exact ⟨rfl, rfl⟩

theorem mirror_auth_eq (registry : Registry) (domain : DomainAccount)
    (caller : Pubkey) (nh : Hash) (po : EthAddr) (sd : Option Pubkey)
    (exp : Nat) (res : Option Pubkey) (ptx : Hash) :
    (mirror_domain registry domain caller nh po sd exp res
        ptx).1.1.authority = registry.authority := by
  unfold mirror_domain; split_ifs <;> rfl

theorem mirror_ok_fields (registry : Registry) (domain : DomainAccount)
    (caller : Pubkey) (nh : Hash) (po : EthAddr) (sd : Option Pubkey)
    (exp : Nat) (res : Option Pubkey) (ptx : Hash)
    (h : (mirror_domain registry domain caller nh po sd exp res ptx).2
      = none) :
    (mirror_domain registry domain caller nh po sd exp res ptx).1.2.owner
        = sd.getD registry.authority
    ∧ (mirror_domain registry domain caller nh po sd exp res
        ptx).1.2.record_count
        = (if domain.owner = pubkeyDefault then 0 else domain.record_count)
    ∧ (mirror_domain registry domain caller nh po sd exp res
        ptx).1.1.domain_count
        = (if domain.owner = pubkeyDefault
            then satAdd64 registry.domain_count 1
            else registry.domain_count) := by
  unfold mirror_domain at h ⊢
  split_ifs at h ⊢ <;> simp_all

theorem update_delegate_rc_eq (registry : Registry) (domain : DomainAccount)
    (caller : Pubkey) (nd : Pubkey) :
    (update_delegate registry domain caller nd).1.record_count
      = domain.record_count := by
  unfold update_delegate; split_ifs <;> rfl

theorem update_delegate_ok_owner (registry : Registry)
    (domain : DomainAccount) (caller : Pubkey) (nd : Pubkey)
    (h : (update_delegate registry domain caller nd).2 = none) :
    (update_delegate registry domain caller nd).1.owner = nd := by
  unfold update_delegate at h ⊢
  split_ifs at h ⊢ <;> simp_all

theorem upsert_owner_eq (registry : Registry) (domain : DomainAccount)
    (record : RecordAccount) (da : Pubkey) (slot : Nat) (caller : Pubkey)
    (kh : Hash) (rt : RecordType) (data : List Nat) (src : ChainSource)
    (ver : Nat) :
    (upsert_record registry domain record da slot caller kh rt data src
        ver).1.1.owner = domain.owner := by
  unfold upsert_record; split_ifs <;> rfl

theorem upsert_ok_fields (registry : Registry) (domain : DomainAccount)
    (record : RecordAccount) (da : Pubkey) (slot : Nat) (caller : Pubkey)
    (kh : Hash) (rt : RecordType) (data : List Nat) (src : ChainSource)
    (ver : Nat)
    (h : (upsert_record registry domain record da slot caller kh rt data src
      ver).2 = none) :
    (upsert_record registry domain record da slot caller kh rt data src
        ver).1.1.record_count
        = (if record.domain = pubkeyDefault
            then satAdd16 domain.record_count 1 else domain.record_count)
    ∧ (upsert_record registry domain record da slot caller kh rt data src
        ver).1.2.domain = da := by
  unfold upsert_record at h ⊢
  split_ifs at h ⊢ <;> simp_all

theorem delete_owner_eq (registry : Registry) (domain : DomainAccount)
    (caller : Pubkey) :
    (delete_record registry domain caller).1.owner = domain.owner := by
  unfold delete_record; split_ifs <;> rfl

theorem delete_ok_rc (registry : Registry) (domain : DomainAccount)
    (caller : Pubkey)
    (h : (delete_record registry domain caller).2 = none) :
    (delete_record registry domain caller).1.record_count
      = domain.record_count - 1 := by
  unfold delete_record at h ⊢
  split_ifs at h ⊢ <;> simp_all

theorem set_wrap_fields (registry : Registry) (domain : DomainAccount)
    (caller : Pubkey) (nm : Option Pubkey) (ws : WrapState) :
    (set_wrap_state registry domain caller nm ws).1.owner = domain.owner
    ∧ (set_wrap_state registry domain caller nm ws).1.record_count
        = domain.record_count := by
  unfold set_wrap_state; split_ifs <;> exact ⟨rfl, rfl⟩

/-! Invariant preservation over ledger steps. -/

theorem invOwner_step (s : GState) (op : Op) (hI : InvOwner s)
    (hok : okOwnerStep s op = true) : InvOwner (stepE s op).1 := by
  obtain ⟨hA, hD⟩ := hI
  cases op with
  | register caller clock nh dur res =>
    simp only [okOwnerStep, decide_eq_true_eq] at hok
    simp only [stepE]
    split
    next e heq => exact ⟨hA, hD⟩
    next heq =>
      dsimp only
      refine ⟨by simpa [register_auth_eq] using hA, ?_⟩
      intro h d hd
      by_cases hh : h = nh
      · subst hh
        rw [alookup_aset_self] at hd
        rcases Option.some.inj hd with rfl
        rw [(register_ok_fields _ _ _ _ _ _ _ heq).1]
        exact hok
      · rw [alookup_aset_ne _ _ _ hh] at hd
        exact hD h d hd
  | renew caller nh dur =>
    simp only [stepE]
    split
    next heq => exact ⟨hA, hD⟩
    next dom heq =>
      split
      next e heq2 => exact ⟨hA, hD⟩
      next heq2 =>
        dsimp only
        refine ⟨hA, ?_⟩
        intro h d hd
        by_cases hh : h = nh
        · subst hh
          rw [alookup_aset_self] at hd
          rcases Option.some.inj hd with rfl
          rw [(renew_fields dom caller dur).1]
          exact hD _ dom heq
        · rw [alookup_aset_ne _ _ _ hh] at hd
          exact hD h d hd
  | transfer caller clock nh nw =>
    simp only [okOwnerStep, decide_eq_true_eq] at hok
    simp only [stepE]
    split
    next heq => exact ⟨hA, hD⟩
    next dom heq =>
      split
      next e heq2 => exact ⟨hA, hD⟩
      next heq2 =>
        dsimp only
        refine ⟨hA, ?_⟩
        intro h d hd
        by_cases hh : h = nh
        · subst hh
          rw [alookup_aset_self] at hd
          rcases Option.some.inj hd with rfl
          rw [transfer_ok_owner _ _ _ _ heq2]
          exact hok
        · rw [alookup_aset_ne _ _ _ hh] at hd
          exact hD h d hd
  | setResolver caller nh res =>
    simp only [stepE]
    split
    next heq => exact ⟨hA, hD⟩
    next dom heq =>
      split
      next e heq2 => exact ⟨hA, hD⟩
      next heq2 =>
        dsimp only
        refine ⟨hA, ?_⟩
        intro h d hd
        by_cases hh : h = nh
        · subst hh
          rw [alookup_aset_self] at hd
          rcases Option.some.inj hd with rfl
          rw [(set_resolver_fields dom caller res).1]
          exact hD _ dom heq
        · rw [alookup_aset_ne _ _ _ hh] at hd
          exact hD h d hd
  | mirror caller nh po sd exp res ptx =>
    simp only [okOwnerStep, decide_eq_true_eq] at hok
    simp only [stepE]
    split
    next e heq => exact ⟨hA, hD⟩
    next heq =>
      dsimp only
      refine ⟨by simpa [mirror_auth_eq] using hA, ?_⟩
      intro h d hd
      by_cases hh : h = nh
      · subst hh
        rw [alookup_aset_self] at hd
        rcases Option.some.inj hd with rfl
        rw [(mirror_ok_fields _ _ _ _ _ _ _ _ _ heq).1]
        cases sd with
        | none => simpa using hA
        | some p =>
          simp only [Option.getD_some]
          intro hp
          exact hok (by rw [hp])
      · rw [alookup_aset_ne _ _ _ hh] at hd
        exact hD h d hd
  | updateDelegate caller nh nd =>
    simp only [okOwnerStep, decide_eq_true_eq] at hok
    simp only [stepE]
    split
    next heq => exact ⟨hA, hD⟩
    next dom heq =>
      split
      next e heq2 => exact ⟨hA, hD⟩
      next heq2 =>
        dsimp only
        refine ⟨hA, ?_⟩
        intro h d hd
        by_cases hh : h = nh
        · subst hh
          rw [alookup_aset_self] at hd
          rcases Option.some.inj hd with rfl
          rw [update_delegate_ok_owner _ _ _ _ heq2]
          exact hok
        · rw [alookup_aset_ne _ _ _ hh] at hd
          exact hD h d hd
  | upsert caller slot nh kh rt data src ver =>
    simp only [stepE]
    split
    next heq => exact ⟨hA, hD⟩
    next dom heq =>
      split
      next e heq2 => exact ⟨hA, hD⟩
      next heq2 =>
        dsimp only
        refine ⟨hA, ?_⟩
        intro h d hd
        by_cases hh : h = nh
        · subst hh
          rw [alookup_aset_self] at hd
          rcases Option.some.inj hd with rfl
          rw [upsert_owner_eq]
          exact hD _ dom heq
        · rw [alookup_aset_ne _ _ _ hh] at hd
          exact hD h d hd
  | deleteRec caller nh kh =>
    simp only [stepE]
    split
    next heq => exact ⟨hA, hD⟩
    next dom heq =>
      split
      next heq1 => exact ⟨hA, hD⟩
      next r0 heq1 =>
        split
        next e heq2 => exact ⟨hA, hD⟩
        next heq2 =>
          dsimp only
          refine ⟨hA, ?_⟩
          intro h d hd
          by_cases hh : h = nh
          · subst hh
            rw [alookup_aset_self] at hd
            rcases Option.some.inj hd with rfl
            rw [delete_owner_eq]
            exact hD _ dom heq
          · rw [alookup_aset_ne _ _ _ hh] at hd
            exact hD h d hd
  | setWrap caller nh nm ws =>
    simp only [stepE]
    split
    next heq => exact ⟨hA, hD⟩
    next dom heq =>
      split
      next e heq2 => exact ⟨hA, hD⟩
      next heq2 =>
        dsimp only
        refine ⟨hA, ?_⟩
        intro h d hd
        by_cases hh : h = nh
        · subst hh
          rw [alookup_aset_self] at hd
          rcases Option.some.inj hd with rfl
          rw [(set_wrap_fields _ dom caller nm ws).1]
          exact hD _ dom heq
        · rw [alookup_aset_ne _ _ _ hh] at hd
          exact hD h d hd

theorem mem_of_alookup_eq_some {α β : Type} [DecidableEq α]
    {l : List (α × β)} {k : α} {v : β} (h : alookup l k = some v) :
    (k, v) ∈ l := by
  induction l with
  | nil => exact absurd h (by simp [alookup])
  | cons kv t ih =>
    rw [alookup_cons] at h
    split_ifs at h with hk
    · rcases Option.some.inj h with rfl
      rw [← hk]
      exact List.mem_cons_self _ _
    · exact List.mem_cons_of_mem _ (ih h)

theorem invCount_step (s : GState) (op : Op) (hO : InvOwner s)
    (hC : InvCount s) (hok : okCountStep s op = true) :
    InvCount (stepE s op).1 := by
  obtain ⟨hA, hD⟩ := hO
  obtain ⟨⟨hN, hZ⟩, hH, hE⟩ := hC
  cases op with
  | register caller clock nh dur res =>
    simp only [okCountStep, decide_eq_true_eq] at hok
    simp only [stepE]
    split
    next e heq => exact ⟨⟨hN, hZ⟩, hH, hE⟩
    next heq =>
      dsimp only
      refine ⟨⟨hN, hZ⟩, fun kv hm => isSome_alookup_aset _ _ (hH kv hm), ?_⟩
      intro h d hd
      by_cases hh : h = nh
      · rw [hh] at hd ⊢
        rw [alookup_aset_self] at hd
        rcases Option.some.inj hd with rfl
        rw [(register_ok_fields _ _ _ _ _ _ _ heq).2.1]
        exact hok.symm
      · rw [alookup_aset_ne _ _ _ hh] at hd
        exact hE h d hd
  | renew caller nh dur =>
    simp only [stepE]
    split
    next heq => exact ⟨⟨hN, hZ⟩, hH, hE⟩
    next dom heq =>
      split
      next e heq2 => exact ⟨⟨hN, hZ⟩, hH, hE⟩
      next heq2 =>
        dsimp only
        refine ⟨⟨hN, hZ⟩, fun kv hm => isSome_alookup_aset _ _ (hH kv hm), ?_⟩
        intro h d hd
        by_cases hh : h = nh
        · rw [hh] at hd ⊢
          rw [alookup_aset_self] at hd
          rcases Option.some.inj hd with rfl
          rw [(renew_fields dom caller dur).2]
          exact hE nh dom heq
        · rw [alookup_aset_ne _ _ _ hh] at hd
          exact hE h d hd
  | transfer caller clock nh nw =>
    simp only [stepE]
    split
    next heq => exact ⟨⟨hN, hZ⟩, hH, hE⟩
    next dom heq =>
      split
      next e heq2 => exact ⟨⟨hN, hZ⟩, hH, hE⟩
      next heq2 =>
        dsimp only
        refine ⟨⟨hN, hZ⟩, fun kv hm => isSome_alookup_aset _ _ (hH kv hm), ?_⟩
        intro h d hd
        by_cases hh : h = nh
        · rw [hh] at hd ⊢
          rw [alookup_aset_self] at hd
          rcases Option.some.inj hd with rfl
          rw [transfer_rc_eq]
          exact hE nh dom heq
        · rw [alookup_aset_ne _ _ _ hh] at hd
          exact hE h d hd
  | setResolver caller nh res =>
    simp only [stepE]
    split
    next heq => exact ⟨⟨hN, hZ⟩, hH, hE⟩
    next dom heq =>
      split
      next e heq2 => exact ⟨⟨hN, hZ⟩, hH, hE⟩
      next heq2 =>
        dsimp only
        refine ⟨⟨hN, hZ⟩, fun kv hm => isSome_alookup_aset _ _ (hH kv hm), ?_⟩
        intro h d hd
        by_cases hh : h = nh
        · rw [hh] at hd ⊢
          rw [alookup_aset_self] at hd
          rcases Option.some.inj hd with rfl
          rw [(set_resolver_fields dom caller res).2]
          exact hE nh dom heq
        · rw [alookup_aset_ne _ _ _ hh] at hd
          exact hE h d hd
  | mirror caller nh po sd exp res ptx =>
    simp only [stepE]
    split
    next e heq => exact ⟨⟨hN, hZ⟩, hH, hE⟩
    next heq =>
      dsimp only
      refine ⟨⟨hN, hZ⟩, fun kv hm => isSome_alookup_aset _ _ (hH kv hm), ?_⟩
      intro h d hd
      by_cases hh : h = nh
      · rw [hh] at hd ⊢
        rw [alookup_aset_self] at hd
        rcases Option.some.inj hd with rfl
        rw [(mirror_ok_fields _ _ _ _ _ _ _ _ _ heq).2.1]
        cases hl : alookup s.domains nh with
        | none =>
            rw [Option.getD_none,
              if_pos (show zeroDomain.owner = pubkeyDefault from rfl)]
            refine (liveCount_eq_zero_of ?_).symm
            intro kv hm he
            have hx := hH kv hm
            rw [he, hl] at hx
            simp at hx
        | some dom0 =>
            rw [Option.getD_some, if_neg (hD nh dom0 hl)]
            exact hE nh dom0 hl
      · rw [alookup_aset_ne _ _ _ hh] at hd
        exact hE h d hd
  | updateDelegate caller nh nd =>
    simp only [stepE]
    split
    next heq => exact ⟨⟨hN, hZ⟩, hH, hE⟩
    next dom heq =>
      split
      next e heq2 => exact ⟨⟨hN, hZ⟩, hH, hE⟩
      next heq2 =>
        dsimp only
        refine ⟨⟨hN, hZ⟩, fun kv hm => isSome_alookup_aset _ _ (hH kv hm), ?_⟩
        intro h d hd
        by_cases hh : h = nh
        · rw [hh] at hd ⊢
          rw [alookup_aset_self] at hd
          rcases Option.some.inj hd with rfl
          rw [update_delegate_rc_eq]
          exact hE nh dom heq
        · rw [alookup_aset_ne _ _ _ hh] at hd
          exact hE h d hd
  | upsert caller slot nh kh rt data src ver =>
    simp only [okCountStep] at hok
    simp only [stepE]
    split
    next heq => exact ⟨⟨hN, hZ⟩, hH, hE⟩
    next dom heq =>
      split
      next e heq2 => exact ⟨⟨hN, hZ⟩, hH, hE⟩
      next heq2 =>
        dsimp only
        refine ⟨⟨nodup_keys_aset _ _ hN, ?_⟩, ?_, ?_⟩
        · intro kv hm
          rcases List.mem_cons.mp hm with h1 | h2
          · rw [h1]
            dsimp only
            rw [(upsert_ok_fields _ _ _ _ _ _ _ _ _ _ _ heq2).2]
            exact Nat.succ_ne_zero nh
          · exact hZ kv (mem_of_mem_aerase h2)
        · intro kv hm
          by_cases hky : kv.1.1 = nh
          · rw [hky, alookup_aset_self]
            rfl
          · rw [alookup_aset_ne _ _ _ hky]
            rcases List.mem_cons.mp hm with h1 | h2
            · exact absurd (by rw [h1]) hky
            · exact hH kv (mem_of_mem_aerase h2)
        · intro h d hd
          by_cases hh : h = nh
          · rw [hh] at hd ⊢
            rw [alookup_aset_self] at hd
            rcases Option.some.inj hd with rfl
            rw [(upsert_ok_fields _ _ _ _ _ _ _ _ _ _ _ heq2).1,
              liveCount_aset, if_pos rfl]
            cases hr : alookup s.records (nh, kh) with
            | none =>
                rw [hr] at hok
                simp only [Option.isSome_none, Bool.false_or,
                  decide_eq_true_eq] at hok
                rw [Option.getD_none,
                  if_pos (show zeroRecord.domain = pubkeyDefault from rfl),
                  aerase_of_lookup_none hr, hE nh dom heq, satAdd16,
                  Nat.min_eq_left hok]
            | some r0 =>
                have hmem := mem_of_alookup_eq_some hr
                rw [Option.getD_some,
                  if_neg (hZ ((nh, kh), r0) hmem),
                  ← liveCount_aerase_eq hN hr rfl]
                exact hE nh dom heq
          · rw [alookup_aset_ne _ _ _ hh] at hd
            rw [liveCount_aset, if_neg (fun he => hh he.symm), Nat.add_zero,
              liveCount_aerase_ne (fun he => hh he.symm)]
            exact hE h d hd
  | deleteRec caller nh kh =>
    simp only [stepE]
    split
    next heq => exact ⟨⟨hN, hZ⟩, hH, hE⟩
    next dom heq =>
      split
      next heq1 => exact ⟨⟨hN, hZ⟩, hH, hE⟩
      next r0 heq1 =>
        split
        next e heq2 => exact ⟨⟨hN, hZ⟩, hH, hE⟩
        next heq2 =>
          dsimp only
          refine ⟨⟨nodup_keys_aerase _ hN,
            fun kv hm => hZ kv (mem_of_mem_aerase hm)⟩,
            fun kv hm =>
              isSome_alookup_aset _ _ (hH kv (mem_of_mem_aerase hm)), ?_⟩
          intro h d hd
          by_cases hh : h = nh
          · rw [hh] at hd ⊢
            rw [alookup_aset_self] at hd
            rcases Option.some.inj hd with rfl
            rw [delete_ok_rc _ _ _ heq2, hE nh dom heq,
              liveCount_aerase_eq hN heq1 rfl, Nat.add_sub_cancel]
          · rw [alookup_aset_ne _ _ _ hh] at hd
            rw [liveCount_aerase_ne (fun he => hh he.symm)]
            exact hE h d hd
  | setWrap caller nh nm ws =>
    simp only [stepE]
    split
    next heq => exact ⟨⟨hN, hZ⟩, hH, hE⟩
    next dom heq =>
      split
      next e heq2 => exact ⟨⟨hN, hZ⟩, hH, hE⟩
      next heq2 =>
        dsimp only
        refine ⟨⟨hN, hZ⟩, fun kv hm => isSome_alookup_aset _ _ (hH kv hm), ?_⟩
        intro h d hd
        by_cases hh : h = nh
        · rw [hh] at hd ⊢
          rw [alookup_aset_self] at hd
          rcases Option.some.inj hd with rfl
          rw [(set_wrap_fields _ dom caller nm ws).2]
          exact hE nh dom heq
        · rw [alookup_aset_ne _ _ _ hh] at hd
          exact hE h d hd

theorem invOwner_init (a : Pubkey) (p : EthAddr) (pol : ConflictPolicy)
    (ha : a ≠ pubkeyDefault) : InvOwner (initState a p pol) :=
  ⟨ha, fun _ _ hd => Option.noConfusion hd⟩

theorem invCount_init (a : Pubkey) (p : EthAddr) (pol : ConflictPolicy) :
    InvCount (initState a p pol) :=
  ⟨⟨List.nodup_nil, fun kv hm => absurd hm (List.not_mem_nil kv)⟩,
    fun kv hm => absurd hm (List.not_mem_nil kv),
    fun _ _ hd => Option.noConfusion hd⟩

theorem invOwner_run (s : GState) (ops : List Op) (hI : InvOwner s)
    (hok : okTrace okOwnerStep s ops = true) : InvOwner (run s ops) := by
  induction ops generalizing s with
  | nil => exact hI
  | cons op ops ih =>
    rw [run]
    rw [okTrace, Bool.and_eq_true] at hok
    exact ih _ (invOwner_step s op hI hok.1) hok.2

theorem invBoth_run (s : GState) (ops : List Op) (hO : InvOwner s)
    (hC : InvCount s) (hok : okTrace okBothStep s ops = true) :
    InvOwner (run s ops) ∧ InvCount (run s ops) := by
  induction ops generalizing s with
  | nil => exact ⟨hO, hC⟩
  | cons op ops ih =>
    rw [run]
    rw [okTrace, Bool.and_eq_true] at hok
    have hb := hok.1
    rw [okBothStep, Bool.and_eq_true] at hb
    exact ih _ (invOwner_step s op hO hb.1) (invCount_step s op hO hC hb.2)
      hok.2

/-- How each transaction moves `domain_count`: the saturating increment on
exactly the successful creation events, unchanged otherwise. -/
theorem step_registry_count (s : GState) (op : Op) :
    (stepE s op).1.registry.domain_count
      = if isCreate s op = true then satAdd64 s.registry.domain_count 1
        else s.registry.domain_count := by
  cases op with
  | register caller clock nh dur res =>
    cases heq : (register_domain s.registry
        ((alookup s.domains nh).getD zeroDomain) clock caller nh dur res).2 with
    | some e =>
        have hc : isCreate s (Op.register caller clock nh dur res) = false := by
          simp [isCreate, stepE, heq]
        rw [hc]
        simp [stepE, heq]
    | none =>
        have hc : isCreate s (Op.register caller clock nh dur res) = true := by
          simp [isCreate, stepE, heq]
        rw [hc, if_pos rfl]
        simp [stepE, heq, (register_ok_fields _ _ _ _ _ _ _ heq).2.2]
  | mirror caller nh po sd exp res ptx =>
    cases heq : (mirror_domain s.registry
        ((alookup s.domains nh).getD zeroDomain) caller nh po sd exp res
        ptx).2 with
    | some e =>
        have hc : isCreate s (Op.mirror caller nh po sd exp res ptx)
            = false := by
          simp [isCreate, stepE, heq]
        rw [hc]
        simp [stepE, heq]
    | none =>
        by_cases hu : ((alookup s.domains nh).getD zeroDomain).owner
            = pubkeyDefault
        · have hc : isCreate s (Op.mirror caller nh po sd exp res ptx)
              = true := by
            simp [isCreate, stepE, heq, hu]
          rw [hc, if_pos rfl]
          simp [stepE, heq, (mirror_ok_fields _ _ _ _ _ _ _ _ _ heq).2.2, hu]
        · have hc : isCreate s (Op.mirror caller nh po sd exp res ptx)
              = false := by
            simp [isCreate, stepE, heq, hu]
          rw [hc]
          simp [stepE, heq, (mirror_ok_fields _ _ _ _ _ _ _ _ _ heq).2.2, hu]
  | renew caller nh dur =>
    rw [show isCreate s (Op.renew caller nh dur) = false from rfl]
    simp only [Bool.false_eq_true, if_false, stepE]
    split
    · rfl
    next dom heq =>
      split
      · rfl
      · rfl
  | transfer caller clock nh nw =>
    rw [show isCreate s (Op.transfer caller clock nh nw) = false from rfl]
    simp only [Bool.false_eq_true, if_false, stepE]
    split
    · rfl
    next dom heq =>
      split
      · rfl
      · rfl
  | setResolver caller nh res =>
    rw [show isCreate s (Op.setResolver caller nh res) = false from rfl]
    simp only [Bool.false_eq_true, if_false, stepE]
    split
    · rfl
    next dom heq =>
      split
      · rfl
      · rfl
  | updateDelegate caller nh nd =>
    rw [show isCreate s (Op.updateDelegate caller nh nd) = false from rfl]
    simp only [Bool.false_eq_true, if_false, stepE]
    split
    · rfl
    next dom heq =>
      split
      · rfl
      · rfl
  | upsert caller slot nh kh rt data src ver =>
    rw [show isCreate s (Op.upsert caller slot nh kh rt data src ver)
      = false from rfl]
    simp only [Bool.false_eq_true, if_false, stepE]
    split
    · rfl
    next dom heq =>
      split
      · rfl
      · rfl
  | deleteRec caller nh kh =>
    rw [show isCreate s (Op.deleteRec caller nh kh) = false from rfl]
    simp only [Bool.false_eq_true, if_false, stepE]
    split
    · rfl
    next dom heq =>
      split
      · rfl
      next r0 heq1 =>
        split
        · rfl
        · rfl
  | setWrap caller nh nm ws =>
    rw [show isCreate s (Op.setWrap caller nh nm ws) = false from rfl]
    simp only [Bool.false_eq_true, if_false, stepE]
    split
    · rfl
    next dom heq =>
      split
      · rfl
      · rfl

theorem step_registry_count_le (s : GState) (op : Op)
    (h : s.registry.domain_count ≤ U64MAX) :
    (stepE s op).1.registry.domain_count ≤ U64MAX := by
  rw [step_registry_count]
  split_ifs
  · exact min_le_right _ _
  · exact h

theorem run_registry_count_mono (s : GState) (ops : List Op)
    (h : s.registry.domain_count ≤ U64MAX) :
    s.registry.domain_count ≤ (run s ops).registry.domain_count
    ∧ (run s ops).registry.domain_count ≤ U64MAX := by
  induction ops generalizing s with
  | nil => exact ⟨le_refl _, h⟩
  | cons op ops ih =>
    rw [run]
    have h1 : s.registry.domain_count
        ≤ (stepE s op).1.registry.domain_count := by
      rw [step_registry_count]
      split_ifs
      · exact le_min (Nat.le_succ _) h
      · exact le_refl _
    obtain ⟨ih1, ih2⟩ := ih _ (step_registry_count_le s op h)
    exact ⟨le_trans h1 ih1, ih2⟩

/-- C4 amended: along any trace from an initialized registry, every existing
domain entry's delegate is non-default, provided the registering signers are
real (non-default) identities and no caller ever supplies the default
identity as a new delegate (to `transfer_domain`, `update_delegate`, or as
`mirror_domain`'s explicit local delegate) — the code itself never checks
this, and an authority call with the default delegate breaks the invariant
(see the counterexample). -/
theorem delegate_nonzero (authority : Pubkey) (preg : EthAddr)
    (pol : ConflictPolicy) (ops : List Op) (h : Hash) (d : DomainAccount)
    (hauth : authority ≠ pubkeyDefault)
    (hok : okTrace okOwnerStep (initState authority preg pol) ops = true)
    (hd : alookup (run (initState authority preg pol) ops).domains h
      = some d) :
    d.owner ≠ pubkeyDefault :=
  (invOwner_run _ ops (invOwner_init authority preg pol hauth) hok).2 h d hd

/-- C4 counterexample: register a domain, then `update_delegate` with
`new_delegate = Pubkey::default()` — every step succeeds and the created
domain's delegate is the default identity. -/
theorem delegate_nonzero_cex :
    allOk s0 cexOps4 = true
    ∧ ((alookup (run s0 cexOps4).domains 10).map DomainAccount.owner)
        = some pubkeyDefault := by decide

/-- C4 witness -/
theorem delegate_nonzero_witness : dWit.owner ≠ pubkeyDefault :=
  delegate_nonzero 1 0 ConflictPolicy.PolygonPriority wOps4 10 dWit
    (by decide) (by decide) (by decide)

/-- C5 amended: along any trace from an initialized registry, every existing
domain entry's `record_count` equals the number of its live record entries
(and, being unsigned with saturating decrement, never goes negative) —
provided (a) the registry authority and every registering signer are
non-default identities and no call ever sets a delegate to the default
identity (via `transfer_domain`, `update_delegate`, or `mirror_domain`'s
explicit delegate): otherwise `mirror_domain` treats the zero-delegate
entry as uninitialized and resets `record_count` to 0 while its records
persist; (b) `register_domain` is never invoked on a domain that still has
live records (re-registration of an expired domain resets the counter to 0
while the record PDAs persist, see the counterexample); and (c) no domain
is pushed past `u16::MAX` live records.  These are exactly the
`okOwnerStep` and `okCountStep` side conditions. -/
theorem record_count_matches_live (authority : Pubkey) (preg : EthAddr)
    (pol : ConflictPolicy) (ops : List Op) (h : Hash) (d : DomainAccount)
    (hauth : authority ≠ pubkeyDefault)
    (hok : okTrace okBothStep (initState authority preg pol) ops = true)
    (hd : alookup (run (initState authority preg pol) ops).domains h
      = some d) :
    d.record_count
      = liveCount (run (initState authority preg pol) ops).records h :=
  (invBoth_run _ ops (invOwner_init authority preg pol hauth)
    (invCount_init authority preg pol) hok).2.2.2 h d hd

/-- C5 counterexample: register a domain for one second, upsert one record,
then re-register the now-expired domain.  Every step succeeds, one record
entry still exists, yet the domain's `record_count` is 0 (and the
created-minus-destroyed tally is 1): `register_domain` resets the counter
while the record PDAs persist. -/
theorem record_count_matches_live_cex :
    allOk s0 cexOps5 = true
    ∧ ((alookup (run s0 cexOps5).domains 10).map DomainAccount.record_count)
        = some 0
    ∧ liveCount (run s0 cexOps5).records 10 = 1 := by decide

/-- C5 witness -/
theorem record_count_matches_live_witness :
    dWit1.record_count
      = liveCount (run (initState 1 0 ConflictPolicy.PolygonPriority)
          wOps5).records 10 :=
  record_count_matches_live 1 0 ConflictPolicy.PolygonPriority wOps5 10 dWit1
    (by decide) (by decide) (by decide)

/-- C6 amended: `domain_count` never decreases along any trace (from any
in-range state), and each transaction moves it by the saturating increment
`min (count + 1) u64::MAX` exactly on successful creation events
(first-time or post-expiry `register_domain`, or `mirror_domain` on an
entry whose delegate is the default identity) and leaves it unchanged on
every other transaction — at the ceiling the increment is not "exactly 1"
(see the counterexample). -/
theorem domain_count_evolution :
    (∀ (s : GState) (ops : List Op), s.registry.domain_count ≤ U64MAX →
      s.registry.domain_count ≤ (run s ops).registry.domain_count)
    ∧ ∀ (s : GState) (op : Op),
      (stepE s op).1.registry.domain_count
        = if isCreate s op = true then satAdd64 s.registry.domain_count 1
          else s.registry.domain_count :=
  ⟨fun s ops h => (run_registry_count_mono s ops h).1, step_registry_count⟩

/-- C6 counterexample: with `domain_count` at `u64::MAX`, a successful
first-time registration (a creation event) leaves the counter unchanged
rather than increasing it by exactly 1. -/
theorem domain_count_evolution_cex :
    (stepE sMax (Op.register 2 0 10 1 none)).2 = none
    ∧ alookup sMax.domains 10 = none
    ∧ (stepE sMax (Op.register 2 0 10 1 none)).1.registry.domain_count
        = U64MAX
    ∧ (stepE sMax (Op.register 2 0 10 1 none)).1.registry.domain_count
        ≠ sMax.registry.domain_count + 1 := by decide

/-- C6 witness -/
theorem domain_count_evolution_witness :
    s0.registry.domain_count ≤ (run s0 wOps4).registry.domain_count :=
  domain_count_evolution.1 s0 wOps4 (by decide)

end Pns
